import Mathlib

/-!
Verification of the TrustWatch monitoring engine against its
natural-language specification.

The definitions below are a shallow embedding of the TypeScript source:

* `ClaimExtractor.detectWeakening` / `ClaimExtractor.detectNumericChange`
  (services/claimExtractor.ts),
* the change classifier, risk-score update, removal sweep, critical-alert
  rate limiter and evidence fan-out of the crawl worker
  (workers/crawlWorker.ts, mirrored by services/crawlService.ts),
* the evidence worker (workers/evidenceWorker.ts),
* the POST /api/companies handler (routes/companies.ts).

JavaScript regular-expression tests of literal alternations are embedded
as case-insensitive substring search; JavaScript truthiness of optional
numeric fields (where the number 0 is falsy) is embedded explicitly.
SHA-256 digests, the pattern pass of the claim extractor and the PDF-link
regex scan are kept abstract: the worker pipeline is parametrised over
`hash`, the extracted-claim list and the match list, since no claim
below depends on their concrete values, only on the downstream logic.
-/

namespace TrustWatch

/-- Polarity of a claim version (positive, negative or neutral). -/
inductive Polarity where
  | positive
  | negative
  | neutral
deriving Repr, DecidableEq

/-- ChangeEvent event types. -/
inductive EventType where
  | ADDED
  | REMOVED
  | WEAKENED
  | REVERSED
  | NUMBER_CHANGED
deriving Repr, DecidableEq

/-- ChangeEvent severities. -/
inductive Severity where
  | Info
  | Medium
  | Critical
deriving Repr, DecidableEq

/-- Claim statuses. -/
inductive ClaimStatus where
  | ACTIVE
  | REMOVED
  | DISPUTED
deriving Repr, DecidableEq

/-- Evidence statuses. -/
inductive EvidenceStatus where
  | PENDING
  | READY
  | FAILED
deriving Repr, DecidableEq

/-- Numeric metadata attached to a claim version
(`extractedMeta = { value: parseFloat(...), unit: ... }` in
claimExtractor.ts). The value is modelled as a rational. -/
structure ExtractedMeta where
  value : Rat
  unit : Option String
deriving Repr, DecidableEq

/-- An extracted claim as produced by `ClaimExtractor.extract`. -/
structure ExtractedClaim where
  claimType : String
  normalizedKey : String
  polarity : Polarity
  rawTextSnippet : String
  confidence : Rat
  extractedMeta : Option ExtractedMeta
deriving Repr, DecidableEq

/-- Case-insensitive character comparison helper: lower-case a
character list (embedding of JavaScript case-insensitive regex flags
over ASCII literals). -/
def toLowerList (s : List Char) : List Char :=
  s.map Char.toLower

/-- Contiguous-sublist test: `containsList pat s` is true iff `pat` occurs as a contiguous
sublist of `s`. -/
def containsList (pat : List Char) : List Char → Bool
  | [] => pat.isEmpty
  | c :: rest => pat.isPrefixOf (c :: rest) || containsList pat rest

/-- Case-insensitive containment: does `s` contain `pat`?
This embeds `/lit1|lit2|.../i.test(s)` for one literal alternative. -/
def containsCI (s pat : String) : Bool :=
  containsList (toLowerList pat.data) (toLowerList s.data)

/-- The weakening pattern table of `ClaimExtractor.detectWeakening`:
each entry is (alternatives that must occur in the old snippet,
alternatives that must occur in the new snippet). -/
def weakeningPatterns : List (List String × List String) :=
  [ (["do not", "don\x27t", "never"], ["may", "might", "could"]),
    (["always"], ["typically", "usually", "generally"]),
    (["all"], ["most", "some"]),
    (["guarantee"], ["strive", "aim", "endeavor"]) ]

/-- Source `ClaimExtractor.detectWeakening(oldSnippet, newSnippet)`: true iff
some pattern pair fires, i.e. its `from` regex matches the old snippet
and its `to` regex matches the new snippet (case-insensitive). -/
def detectWeakening (oldSnippet newSnippet : String) : Bool :=
  weakeningPatterns.any fun p =>
    (p.1.any fun w => containsCI oldSnippet w) &&
    (p.2.any fun w => containsCI newSnippet w)

/-- JavaScript truthiness of `meta?.value`: false when the metadata is
absent or the numeric value is 0 (the number 0 is falsy in JS). -/
def metaValueTruthy : Option ExtractedMeta → Bool
  | none => false
  | some m => m.value != 0

/-- Source `ClaimExtractor.detectNumericChange(oldMeta, newMeta)`: returns
`(changed, decreased)`. The source guard is
`if (!oldMeta?.value || !newMeta?.value) return (false, false)`,
so a value of 0 on either side short-circuits to `(false, false)`. -/
def detectNumericChange (oldMeta newMeta : Option ExtractedMeta) : Bool × Bool :=
  if !metaValueTruthy oldMeta || !metaValueTruthy newMeta then
    (false, false)
  else
    match oldMeta, newMeta with
    | some o, some n => (o.value != n.value, decide (n.value < o.value))
    | _, _ => (false, false)

/-- The change classifier inlined in `processClaimChange`
(crawlWorker.ts lines 352-371): starting from the default
`ADDED`/`Info`, test weakening, then (guarded by JS truthiness of both
numeric values, new side first) numeric change, then polarity flip. -/
def classifyChange (oldSnippet newSnippet : String)
    (lastMeta newMeta : Option ExtractedMeta)
    (lastPolarity newPolarity : Polarity) : EventType × Severity :=
  if detectWeakening oldSnippet newSnippet then
    (EventType.WEAKENED, Severity.Critical)
  else if metaValueTruthy newMeta && metaValueTruthy lastMeta then
    let r := detectNumericChange lastMeta newMeta
    if r.1 then
      (EventType.NUMBER_CHANGED, if r.2 then Severity.Medium else Severity.Info)
    else
      (EventType.ADDED, Severity.Info)
  else if lastPolarity != newPolarity then
    (EventType.REVERSED, Severity.Critical)
  else
    (EventType.ADDED, Severity.Info)

/-- One classification rule of the priority list in the specification:
a firing condition together with the outcome it produces. -/
structure ClassifierRule where
  fires : Bool
  outcome : EventType × Severity

/-- First-match semantics over a rule list, as the specification words
it: "classify by the following priority, selecting the first that
fires", with a default when no rule fires. -/
def firstFiring (rules : List ClassifierRule) (dflt : EventType × Severity) :
    EventType × Severity :=
  match rules.find? (·.fires) with
  | some r => r.outcome
  | none => dflt

/-- Modelled from the spec: the classifier exactly as the claim words
it. Rule a: weakening. Rule b: both versions carry numeric metadata
and the values differ. Rule c: polarity flipped. Default: ADDED/Info. -/
def classifySpec (oldSnippet newSnippet : String)
    (lastMeta newMeta : Option ExtractedMeta)
    (lastPolarity newPolarity : Polarity) : EventType × Severity :=
  firstFiring
    [ ⟨detectWeakening oldSnippet newSnippet,
        (EventType.WEAKENED, Severity.Critical)⟩,
      ⟨lastMeta.isSome && newMeta.isSome &&
          (detectNumericChange lastMeta newMeta).1,
        (EventType.NUMBER_CHANGED,
          if (detectNumericChange lastMeta newMeta).2 then Severity.Medium
          else Severity.Info)⟩,
      ⟨lastPolarity != newPolarity,
        (EventType.REVERSED, Severity.Critical)⟩ ]
    (EventType.ADDED, Severity.Info)

/-- The classifier as the code actually behaves, stated in the
rule-list style of the specification: when both numeric values are truthy
the numeric rule consumes the case even if the values are equal, so
the polarity rule is only consulted when the numeric guard fails. -/
def classifySpecAmended (oldSnippet newSnippet : String)
    (lastMeta newMeta : Option ExtractedMeta)
    (lastPolarity newPolarity : Polarity) : EventType × Severity :=
  firstFiring
    [ ⟨detectWeakening oldSnippet newSnippet,
        (EventType.WEAKENED, Severity.Critical)⟩,
      ⟨metaValueTruthy newMeta && metaValueTruthy lastMeta &&
          (detectNumericChange lastMeta newMeta).1,
        (EventType.NUMBER_CHANGED,
          if (detectNumericChange lastMeta newMeta).2 then Severity.Medium
          else Severity.Info)⟩,
      ⟨metaValueTruthy newMeta && metaValueTruthy lastMeta,
        (EventType.ADDED, Severity.Info)⟩,
      ⟨lastPolarity != newPolarity,
        (EventType.REVERSED, Severity.Critical)⟩ ]
    (EventType.ADDED, Severity.Info)

/-- Modelled from the spec: the reading the claim gives of
`detect_numeric_change` — both components false if either side lacks a
numeric value, otherwise the values are compared (so a present value of
0 still takes part in the comparison). -/
def specNumericChange (oldMeta newMeta : Option ExtractedMeta) : Bool × Bool :=
  match oldMeta, newMeta with
  | some o, some n => (o.value != n.value, decide (n.value < o.value))
  | _, _ => (false, false)

/-- Numeric value of a metadata map under JS truthiness: absent when
the metadata is missing or the value is 0. -/
def numericValueOf (m : Option ExtractedMeta) : Option Rat :=
  match m with
  | some mm => if mm.value = 0 then none else some mm.value
  | none => none

/-- The numeric-change detector as the code actually behaves, stated in
the style of the spec: a side whose value is 0 counts as lacking a numeric
value. -/
def specNumericChangeAmended (oldMeta newMeta : Option ExtractedMeta) :
    Bool × Bool :=
  match numericValueOf oldMeta, numericValueOf newMeta with
  | some a, some b => (a != b, decide (b < a))
  | _, _ => (false, false)

/-- The additive delta of `updateRiskScore` (crawlWorker.ts lines 455-466):
the if/else-if chain selecting the score increase. -/
def riskDelta (eventType : EventType) (severity : Severity) : Nat :=
  if eventType == EventType.REMOVED && severity == Severity.Critical then 40
  else if eventType == EventType.WEAKENED && severity == Severity.Critical then 40
  else if eventType == EventType.NUMBER_CHANGED && severity == Severity.Medium then 10
  else if eventType == EventType.REVERSED then 30
  else 0

/-- Source `updateRiskScore`: when the increase is positive the company score
becomes `Math.min(100, riskScore + scoreIncrease)`; otherwise the
document is not touched. -/
def updateRiskScore (riskScore : Nat) (eventType : EventType)
    (severity : Severity) : Nat :=
  let scoreIncrease := riskDelta eventType severity
  if 0 < scoreIncrease then min 100 (riskScore + scoreIncrease) else riskScore

/-- Modelled from the spec: the delta table exactly as the claim lists
it — Critical REMOVED +40, Critical WEAKENED +40, Medium NUMBER_CHANGED
+10, any REVERSED +30, all other cases 0. -/
def specRiskDelta : EventType → Severity → Nat
  | EventType.REMOVED, Severity.Critical => 40
  | EventType.WEAKENED, Severity.Critical => 40
  | EventType.NUMBER_CHANGED, Severity.Medium => 10
  | EventType.REVERSED, _ => 30
  | _, _ => 0

/-- A Claim summary row (models/Claim.ts), scoped to one company. -/
structure ClaimRec where
  claimType : String
  normalizedKey : String
  currentStatus : ClaimStatus
  firstSeenAt : Nat
  lastSeenAt : Nat
  currentSnippet : String
  currentSourceUrl : String
  confidence : Rat
deriving Repr, DecidableEq

/-- A ClaimVersion row (models/ClaimVersion.ts). -/
structure ClaimVersionRec where
  snippet : String
  sourceUrl : String
  contentHash : String
  seenAt : Nat
  polarity : Polarity
  extractedMeta : Option ExtractedMeta
deriving Repr, DecidableEq

/-- A ClaimVersion row together with the identity of its owning claim
(a claim is keyed by (claimType, normalizedKey) within a company). -/
structure VersionEntry where
  claimType : String
  normalizedKey : String
  version : ClaimVersionRec
deriving Repr, DecidableEq

/-- A ChangeEvent row (models/ChangeEvent.ts), scoped to one company. -/
structure ChangeEventRec where
  claimType : String
  normalizedKey : String
  eventType : EventType
  severity : Severity
  oldSnippet : Option String
  newSnippet : Option String
  sourceUrl : String
  detectedAt : Nat
  emailedAt : Option Nat
deriving Repr, DecidableEq

/-- Structured fields extracted from a parsed PDF
(models/Evidence.ts `extractedFields`). -/
structure EvidenceFields where
  reportType : Option String
  auditor : Option String
  periodStart : Option Nat
  periodEnd : Option Nat
  scope : Option String
  pageNumbers : Option (List Nat)
  pageContent : Option (List (Nat × String))
deriving Repr, DecidableEq

/-- An Evidence row (models/Evidence.ts), scoped to one company. -/
structure EvidenceRec where
  claimType : String
  pdfUrl : String
  sourceUrl : Option String
  status : EvidenceStatus
  error : Option String
  extractedFields : Option EvidenceFields
  processedAt : Option Nat
deriving Repr, DecidableEq

/-- The owning user of a company (only the email is relevant here). -/
structure UserRec where
  email : String
deriving Repr, DecidableEq

/-- The store state touched by one crawl job, scoped to one company and
one crawl target. `versions` is kept most-recent-first, so its head per
claim is what the source-side descending sort on seenAt followed by findOne returns.
`evidenceJobs` records the pdf URLs of enqueued process_evidence jobs.
CrawlRun telemetry counters are not modelled. -/
structure CrawlState where
  claims : List ClaimRec
  versions : List VersionEntry
  events : List ChangeEventRec
  evidence : List EvidenceRec
  evidenceJobs : List String
  riskScore : Nat
  targetLastHash : Option String
  targetLastCrawledAt : Option Nat
deriving Repr, DecidableEq

/-- The ADDED event created on the new-claim path of
`processClaimChange` (crawlWorker.ts lines 318-327): new snippet only. -/
def newClaimEvent (extracted : ExtractedClaim) (url : String) (now : Nat) :
    ChangeEventRec :=
  { claimType := extracted.claimType
    normalizedKey := extracted.normalizedKey
    eventType := EventType.ADDED
    severity := Severity.Info
    oldSnippet := none
    newSnippet := some extracted.rawTextSnippet
    sourceUrl := url
    detectedAt := now
    emailedAt := none }

/-- The event created on the changed-claim path of `processClaimChange`
(crawlWorker.ts lines 373-383): classified type and severity, and both
`oldSnippet` and `newSnippet` are always set. -/
def changedClaimEvent (claim : ClaimRec) (extracted : ExtractedClaim)
    (lastVersion : ClaimVersionRec) (url : String) (now : Nat) :
    ChangeEventRec :=
  let r := classifyChange claim.currentSnippet extracted.rawTextSnippet
    lastVersion.extractedMeta extracted.extractedMeta
    lastVersion.polarity extracted.polarity
  { claimType := extracted.claimType
    normalizedKey := extracted.normalizedKey
    eventType := r.1
    severity := r.2
    oldSnippet := some claim.currentSnippet
    newSnippet := some extracted.rawTextSnippet
    sourceUrl := url
    detectedAt := now
    emailedAt := none }

/-- Severity of a removal event:
compliance claims give Critical, every other claim type gives Medium. -/
def removedSeverity (claim : ClaimRec) : Severity :=
  if claim.claimType == "compliance" then Severity.Critical
  else Severity.Medium

/-- The REMOVED event created by the removal sweep (crawlWorker.ts
lines 431-440): old snippet only. -/
def removedEvent (claim : ClaimRec) (url : String) (now : Nat) :
    ChangeEventRec :=
  { claimType := claim.claimType
    normalizedKey := claim.normalizedKey
    eventType := EventType.REMOVED
    severity := removedSeverity claim
    oldSnippet := some claim.currentSnippet
    newSnippet := none
    sourceUrl := url
    detectedAt := now
    emailedAt := none }

/-- Modelled from the spec: the event-type payload matrix of P3 —
REMOVED carries old only, ADDED carries new only, the remaining types
carry both. -/
def matchesPayloadMatrix (ev : ChangeEventRec) : Bool :=
  match ev.eventType with
  | EventType.REMOVED => ev.oldSnippet.isSome && ev.newSnippet.isNone
  | EventType.ADDED => ev.newSnippet.isSome && ev.oldSnippet.isNone
  | _ => ev.oldSnippet.isSome && ev.newSnippet.isSome

/-- Sixty minutes in milliseconds, the rate-limit window. -/
def alertWindowMs : Nat := 3600000

/-- The rate-limit count of `sendCriticalAlert`: Critical events of the
company whose `emailedAt` is at least `now - 1h` (`$gte: oneHourAgo`;
a document with no `emailedAt` never matches `$gte`). Timestamps are
milliseconds, so natural subtraction agrees with the source for every
timestamp at least 0. -/
def recentCriticalCount (events : List ChangeEventRec) (now : Nat) : Nat :=
  (events.filter fun e =>
    e.severity == Severity.Critical &&
      match e.emailedAt with
      | some t => now - alertWindowMs ≤ t
      | none => false).length

/-- Result of one `sendCriticalAlert` call: the (possibly updated)
event document and whether the mail adapter was invoked. -/
structure AlertOutcome where
  event : ChangeEventRec
  emailed : Bool
deriving Repr, DecidableEq

/-- Source `sendCriticalAlert(event, company)` (crawlWorker.ts lines 478-517):
if five or more recent Critical alerts were emailed in the trailing
hour, drop silently; if the owning user is missing, drop; otherwise
send the email and stamp `emailedAt = now`. `events` is the per-company
event collection at call time (the event itself is already inserted,
with `emailedAt` unset). -/
def sendCriticalAlert (events : List ChangeEventRec) (ev : ChangeEventRec)
    (now : Nat) (user : Option UserRec) : AlertOutcome :=
  if 5 ≤ recentCriticalCount events now then ⟨ev, false⟩
  else
    match user with
    | none => ⟨ev, false⟩
    | some _ => ⟨{ ev with emailedAt := some now }, true⟩

/-- Insert a freshly created event into the store and, when it is
Critical, run `sendCriticalAlert` against the collection (which now
contains the new event) and persist its updated `emailedAt`. -/
def pushEventWithAlert (st : CrawlState) (ev : ChangeEventRec) (now : Nat)
    (user : Option UserRec) : CrawlState :=
  if ev.severity == Severity.Critical then
    { st with events := (sendCriticalAlert (ev :: st.events) ev now user).event :: st.events }
  else
    { st with events := ev :: st.events }

/-- Claim identity within a company: the unique index
(companyId, claimType, normalizedKey). -/
def sameClaimIdent (claimType normalizedKey : String) (c : ClaimRec) : Bool :=
  c.claimType == claimType && c.normalizedKey == normalizedKey

/-- Source-side most recent version lookup: the most
recent version of the claim (the head, since `versions` is kept
most-recent-first). -/
def lastVersionFor (versions : List VersionEntry)
    (claimType normalizedKey : String) : Option ClaimVersionRec :=
  ((versions.filter fun v =>
    v.claimType == claimType && v.normalizedKey == normalizedKey).head?).map
    (·.version)

/-- The ClaimVersion document created by `ClaimVersion.create`. -/
def mkVersion (extracted : ExtractedClaim) (url contentHash : String)
    (now : Nat) : VersionEntry :=
  ⟨extracted.claimType, extracted.normalizedKey,
    ⟨extracted.rawTextSnippet, url, contentHash, now,
      extracted.polarity, extracted.extractedMeta⟩⟩

/-- Source `processClaimChange(extracted, company, target, crawlRun)`
(crawlWorker.ts lines 275-403). Returns `none` when the job body
throws: the only throwing path here is an existing claim with no
stored version, where the source dereferences the null `lastVersion`
after creating the new version (none of the verified claims exercise
that path). The hash function is a parameter; only equality of its
outputs matters. -/
def processClaimChange (hash : String → String) (extracted : ExtractedClaim)
    (url : String) (now : Nat) (user : Option UserRec) (st : CrawlState) :
    Option CrawlState :=
  let contentHash := hash extracted.rawTextSnippet
  match st.claims.find? (sameClaimIdent extracted.claimType extracted.normalizedKey) with
  | none =>
    let claim : ClaimRec :=
      { claimType := extracted.claimType
        normalizedKey := extracted.normalizedKey
        currentStatus := ClaimStatus.ACTIVE
        firstSeenAt := now
        lastSeenAt := now
        currentSnippet := extracted.rawTextSnippet
        currentSourceUrl := url
        confidence := extracted.confidence }
    some { st with
      claims := st.claims ++ [claim]
      versions := mkVersion extracted url contentHash now :: st.versions
      events := newClaimEvent extracted url now :: st.events }
  | some claim =>
    match lastVersionFor st.versions extracted.claimType extracted.normalizedKey with
    | some lastVersion =>
      if lastVersion.contentHash == contentHash then
        some { st with claims := st.claims.map fun c =>
          if sameClaimIdent extracted.claimType extracted.normalizedKey c then
            { c with lastSeenAt := now }
          else c }
      else
        let ev := changedClaimEvent claim extracted lastVersion url now
        let st1 : CrawlState :=
          { st with
            versions := mkVersion extracted url contentHash now :: st.versions
            claims := st.claims.map fun c =>
              if sameClaimIdent extracted.claimType extracted.normalizedKey c then
                { c with currentSnippet := extracted.rawTextSnippet
                         currentSourceUrl := url
                         lastSeenAt := now }
              else c
            riskScore := updateRiskScore st.riskScore ev.eventType ev.severity }
        some (pushEventWithAlert st1 ev now user)
    | none => none

/-- The removal-sweep condition: claims that currently point at this
target URL, are ACTIVE, and whose key was not extracted in this run. -/
def removedPred (url : String) (extractedKeys : List String)
    (c : ClaimRec) : Bool :=
  c.currentStatus == ClaimStatus.ACTIVE && c.currentSourceUrl == url &&
    !extractedKeys.contains c.normalizedKey

/-- The body of the removal-sweep loop for one removed claim: set
status REMOVED, create the REMOVED event, bump the risk score, and for
Critical severity run the alert path. -/
def processRemovedClaim (url : String) (now : Nat) (user : Option UserRec)
    (st : CrawlState) (claim : ClaimRec) : CrawlState :=
  let ev := removedEvent claim url now
  let st1 : CrawlState :=
    { st with
      claims := st.claims.map fun c =>
        if sameClaimIdent claim.claimType claim.normalizedKey c then
          { c with currentStatus := ClaimStatus.REMOVED }
        else c
      riskScore := updateRiskScore st.riskScore EventType.REMOVED (removedSeverity claim) }
  pushEventWithAlert st1 ev now user

/-- Source `checkRemovedClaims(company, target, extractedClaims, crawlRun)`
(crawlWorker.ts lines 408-450): snapshot the ACTIVE claims sourced at
this URL, then process every one whose key is not in the extracted
set. -/
def checkRemovedClaims (url : String) (extractedKeys : List String)
    (now : Nat) (user : Option UserRec) (st : CrawlState) : CrawlState :=
  let existingClaims := st.claims.filter fun c =>
    c.currentStatus == ClaimStatus.ACTIVE && c.currentSourceUrl == url
  existingClaims.foldl
    (fun acc c =>
      if extractedKeys.contains c.normalizedKey then acc
      else processRemovedClaim url now user acc c)
    st

/-- The PENDING Evidence row created by the fan-out
(claim type compliance, status PENDING). -/
def pendingEvidenceRow (pdfUrl : String) : EvidenceRec :=
  { claimType := "compliance"
    pdfUrl := pdfUrl
    sourceUrl := none
    status := EvidenceStatus.PENDING
    error := none
    extractedFields := none
    processedAt := none }

/-- Loop body of the evidence fan-out for one matched pdf URL: skip if
an Evidence row with this (company, pdfUrl) already exists, otherwise
create a PENDING row and enqueue one process_evidence job. -/
def processPdfUrl (acc : List EvidenceRec × List String) (pdfUrl : String) :
    List EvidenceRec × List String :=
  if acc.1.any (fun e => e.pdfUrl == pdfUrl) then acc
  else (acc.1 ++ [pendingEvidenceRow pdfUrl], acc.2 ++ [pdfUrl])

/-- Source `extractAndEnqueueEvidence(content, company, target)`
(crawlWorker.ts lines 522-552): iterate over `matches.slice(0, 3)` —
the first three regex matches, duplicates included — creating rows and
jobs for those not already present. `matches` stands for the result of
`content.match(/https?:\/\/[^\s<>"]+\.pdf/gi)` (an empty list for a
null match result, which makes the surrounding length guard a no-op). -/
def extractAndEnqueueEvidence (matchList : List String)
    (evidence : List EvidenceRec) (jobs : List String) :
    List EvidenceRec × List String :=
  (matchList.take 3).foldl processPdfUrl (evidence, jobs)

/-- The pdf URLs the claim, as stated, would create rows for: the first
three distinct matched URLs not already present in Evidence. -/
def firstThreeDistinctNew (matchList : List String)
    (evidence : List EvidenceRec) : List String :=
  ((matchList.foldl
    (fun acc url =>
      if evidence.any (fun e => e.pdfUrl == url) || acc.contains url then acc
      else acc ++ [url])
    []).take 3)

/-- Source `processCrawlJob(job)` (crawlWorker.ts lines 155-269) from the
content-hash check on: stop if the stored digest matches, else extract,
upsert every extracted claim, sweep removals, persist the new digest
and `lastCrawledAt`, and fan out evidence. Fetching, telemetry and
CrawlRun counters are not modelled. The content hash, the claim
extractor pass and the pdf-link scan are parameters (`hash`, `extract`,
`pdfMatches`). -/
def processCrawlJob (hash : String → String)
    (extract : String → List ExtractedClaim)
    (pdfMatches : String → List String)
    (content url : String) (now : Nat) (user : Option UserRec)
    (st : CrawlState) : Option CrawlState :=
  let contentHash := hash content
  if (match st.targetLastHash with
      | some h => h == contentHash
      | none => false) then
    some st
  else
    let extractedClaims := extract content
    let afterClaims := extractedClaims.foldl
      (fun acc e => acc.bind (processClaimChange hash e url now user)) (some st)
    afterClaims.map fun st1 =>
      let st2 := checkRemovedClaims url (extractedClaims.map (·.normalizedKey)) now user st1
      let st3 : CrawlState :=
        { st2 with targetLastHash := some contentHash
                   targetLastCrawledAt := some now }
      let r := extractAndEnqueueEvidence (pdfMatches content) st3.evidence st3.evidenceJobs
      { st3 with evidence := r.1, evidenceJobs := r.2 }

/-- Events whose `emailedAt` falls in the rolling window `[t - 1h, t]`. -/
def windowCount (events : List ChangeEventRec) (t : Nat) : Nat :=
  (events.filter fun e =>
    match e.emailedAt with
    | some s => decide (t - alertWindowMs ≤ s) && decide (s ≤ t)
    | none => false).length

/-- Event collections reachable through the alert pipeline: events are
inserted with `emailedAt` unset, and a Critical event may then go
through `sendCriticalAlert` at a time `now` no earlier than every
previously stamped `emailedAt` (`Date.now()` is monotone). -/
inductive AlertReachable : List ChangeEventRec → Prop where
  | nil : AlertReachable []
  | create (events : List ChangeEventRec) (ev : ChangeEventRec)
      (h : AlertReachable events) (hnone : ev.emailedAt = none) :
      AlertReachable (ev :: events)
  | alert (events : List ChangeEventRec) (ev : ChangeEventRec) (now : Nat)
      (user : Option UserRec) (h : AlertReachable (ev :: events))
      (hnone : ev.emailedAt = none) (hcrit : ev.severity = Severity.Critical)
      (hmono : ∀ e ∈ events, ∀ t, e.emailedAt = some t → t ≤ now) :
      AlertReachable ((sendCriticalAlert (ev :: events) ev now user).event :: events)

/-- Result of one evidence-worker job: the saved Evidence document,
whether the PDF parser adapter was invoked, and whether the job body
re-threw for the queue to retry. -/
structure EvidenceJobResult where
  record : EvidenceRec
  parserInvoked : Bool
  rethrown : Bool
deriving Repr, DecidableEq

/-- Source `processEvidenceJob(job)` (evidenceWorker.ts lines 608-655): load
the record, call the PDF parser unconditionally — there is no status
check — and on success persist the fields with status READY, on failure
persist status FAILED with the error, stamping `processedAt` either
way. The parser call and field extraction are a parameter
(`parsePdf`). -/
def processEvidenceJob (parsePdf : Except String EvidenceFields) (now : Nat)
    (evidence : EvidenceRec) : EvidenceJobResult :=
  match parsePdf with
  | Except.ok fields =>
    ⟨{ evidence with extractedFields := some fields
                     status := EvidenceStatus.READY
                     processedAt := some now }, true, false⟩
  | Except.error msg =>
    ⟨{ evidence with status := EvidenceStatus.FAILED
                     error := some msg
                     processedAt := some now }, true, true⟩

/-- Case-sensitive substring test: JavaScript `String.includes`. -/
def containsStr (s pat : String) : Bool :=
  containsList pat.data s.data

/-- Lower-case a string (JavaScript `toLowerCase` over ASCII). -/
def lowerStr (s : String) : String :=
  ⟨toLowerList s.data⟩

/-- Strip a leading http or https scheme, as the first replace of the route does. -/
def stripHttpHead (s : List Char) : List Char :=
  if "https://".data.isPrefixOf s then s.drop 8
  else if "http://".data.isPrefixOf s then s.drop 7
  else s

/-- Strip one trailing slash, as the second replace of the route does. -/
def stripTrailingSlash (s : List Char) : List Char :=
  if s.getLast? = some '/' then s.dropLast else s

/-- Domain normalisation in POST /api/companies:
lower-case the domain, strip a leading scheme, strip one trailing slash. -/
def normalizeDomain (domain : String) : String :=
  ⟨stripTrailingSlash (stripHttpHead (toLowerList domain.data))⟩

/-- A Company row (models/Company.ts); only the fields the route
touches. -/
structure CompanyRec where
  domain : String
  displayName : String
  categoriesEnabled : List String
  riskScore : Nat
deriving Repr, DecidableEq

/-- A CrawlTarget row (models/CrawlTarget.ts), keyed here by the owning
normalised domain of the owning company. -/
structure TargetRec where
  companyDomain : String
  url : String
  kind : String
deriving Repr, DecidableEq

/-- The store state touched by POST /api/companies: companies, crawl
targets, and the URLs of enqueued crawl_target jobs. -/
structure ApiState where
  companies : List CompanyRec
  targets : List TargetRec
  crawlJobs : List String
deriving Repr, DecidableEq

/-- HTTP status plus resulting store state. -/
structure PostCompaniesResult where
  status : Nat
  state : ApiState
deriving Repr, DecidableEq

/-- JS truthiness of an optional string field (empty string is falsy). -/
def truthyString : Option String → Bool
  | none => false
  | some s => s != ""

/-- Seed target URLs derived from the normalised categories
(routes/companies.ts lines 60-98): demo-site domains get the base URL
verbatim, otherwise category → path rules. -/
def seedTargetUrls (domain : String) (normalizedCategories : List String) :
    List String :=
  let baseUrl := "https://" ++ domain
  if containsStr domain "demo-sites" then [baseUrl]
  else
    (if normalizedCategories.contains "security" then
      [baseUrl ++ "/security", baseUrl ++ "/trust", baseUrl ++ "/compliance"]
     else []) ++
    (if normalizedCategories.contains "privacy" then
      [baseUrl ++ "/privacy", baseUrl ++ "/terms"]
     else []) ++
    (if normalizedCategories.contains "sla" then
      [baseUrl ++ "/sla", baseUrl ++ "/status"]
     else []) ++
    (if normalizedCategories.contains "pricing" then
      [baseUrl ++ "/pricing"]
     else [])

/-- POST /api/companies (routes/companies.ts lines 42-136). Validation
rejects a missing or empty domain or display name with 400. The Company
is created first, with categoriesEnabled defaulting to security and
privacy when the categories field is falsy. Then `categories.map(...)`
runs: when `categories` was omitted this throws a TypeError which the
catch of the route turns into a
500 — after the company was persisted and before any CrawlTarget is
created or any crawl job enqueued. With categories present, seed
targets are created and one crawl job per created target is enqueued,
answering 200. -/
def postCompanies (domain displayName : Option String)
    (categories : Option (List String)) (st : ApiState) :
    PostCompaniesResult :=
  if !truthyString domain || !truthyString displayName then ⟨400, st⟩
  else
    let d := normalizeDomain (domain.getD "")
    let company : CompanyRec :=
      { domain := d
        displayName := displayName.getD ""
        categoriesEnabled := categories.getD ["security", "privacy"]
        riskScore := 0 }
    let st1 : ApiState := { st with companies := st.companies ++ [company] }
    match categories with
    | none => ⟨500, st1⟩
    | some cats =>
      let urls := seedTargetUrls d (cats.map lowerStr)
      let newTargets := urls.map fun u => TargetRec.mk d u "seed"
      ⟨200, { st1 with targets := st.targets ++ newTargets
                       crawlJobs := st.crawlJobs ++ urls }⟩

/-- The data a REMOVED event copies from the removed claim: its claim
type and key, the old snippet (and no new snippet), and the severity
rule Critical-for-compliance / Medium-otherwise. -/
def removalEventShape (c : ClaimRec) (e : ChangeEventRec) : Prop :=
  e.claimType = c.claimType ∧ e.normalizedKey = c.normalizedKey ∧
  e.eventType = EventType.REMOVED ∧ e.severity = removedSeverity c ∧
  e.oldSnippet = some c.currentSnippet ∧ e.newSnippet = none

/-- The pdf URLs for which the fan-out loop creates a row, in creation
order: it walks the url list, skipping urls already present in the
evidence accumulated so far (which grows by the created row). -/
def newPdfUrls (urls : List String) (evidence : List EvidenceRec) :
    List String :=
  match urls with
  | [] => []
  | u :: rest =>
    if evidence.any (fun x => x.pdfUrl == u) then newPdfUrls rest evidence
    else u :: newPdfUrls rest (evidence ++ [pendingEvidenceRow u])

/-- Fixture: an existing SOC 2 claim row whose snippet text changes
without weakening, numeric metadata or a polarity flip. -/
def fixtureClaimSoc2 : ClaimRec :=
  { claimType := "compliance"
    normalizedKey := "SOC2_TYPE_II"
    currentStatus := ClaimStatus.ACTIVE
    firstSeenAt := 0
    lastSeenAt := 0
    currentSnippet := "soc 2 type ii compliant"
    currentSourceUrl := "https://x.example/security"
    confidence := 95 / 100 }

/-- Fixture: the re-extracted SOC 2 claim with changed snippet text. -/
def fixtureExtractedSoc2 : ExtractedClaim :=
  { claimType := "compliance"
    normalizedKey := "SOC2_TYPE_II"
    polarity := Polarity.neutral
    rawTextSnippet := "soc 2 type ii certified"
    confidence := 95 / 100
    extractedMeta := none }

/-- Fixture: the stored last version of the SOC 2 claim. -/
def fixtureLastVersionSoc2 : ClaimVersionRec :=
  { snippet := "soc 2 type ii compliant"
    sourceUrl := "https://x.example/security"
    contentHash := "h0"
    seenAt := 0
    polarity := Polarity.neutral
    extractedMeta := none }

/-- Fixture: an existing privacy claim whose new wording weakens it
("never" gives way to "may"). -/
def fixtureClaimDoNotSell : ClaimRec :=
  { claimType := "privacy"
    normalizedKey := "DO_NOT_SELL"
    currentStatus := ClaimStatus.ACTIVE
    firstSeenAt := 0
    lastSeenAt := 0
    currentSnippet := "we never sell customer data"
    currentSourceUrl := "https://x.example/privacy"
    confidence := 85 / 100 }

/-- Fixture: the weakened re-extraction of the privacy claim. -/
def fixtureExtractedWeakened : ExtractedClaim :=
  { claimType := "privacy"
    normalizedKey := "DO_NOT_SELL"
    polarity := Polarity.negative
    rawTextSnippet := "we may share customer data with partners"
    confidence := 85 / 100
    extractedMeta := none }

/-- Fixture: the stored last version of the privacy claim. -/
def fixtureLastVersionDoNotSell : ClaimVersionRec :=
  { snippet := "we never sell customer data"
    sourceUrl := "https://x.example/privacy"
    contentHash := "h1"
    seenAt := 0
    polarity := Polarity.negative
    extractedMeta := none }

/-- Fixture: a Critical event document as freshly inserted (no
`emailedAt`). -/
def fixtureCriticalEvent : ChangeEventRec :=
  { claimType := "compliance"
    normalizedKey := "SOC2_TYPE_II"
    eventType := EventType.REMOVED
    severity := Severity.Critical
    oldSnippet := some "soc 2 type ii compliant"
    newSnippet := none
    sourceUrl := "https://x.example/security"
    detectedAt := 0
    emailedAt := none }

/-- Fixture: a Critical event already emailed at time 0. -/
def fixtureEmailedCriticalEvent : ChangeEventRec :=
  { fixtureCriticalEvent with emailedAt := some 0 }

/-- Fixture: an Evidence row that has already been processed to
READY. -/
def fixtureReadyEvidence : EvidenceRec :=
  { claimType := "compliance"
    pdfUrl := "https://x.example/soc2-report.pdf"
    sourceUrl := none
    status := EvidenceStatus.READY
    error := none
    extractedFields := some
      { reportType := some "SOC 2 Type II"
        auditor := some "Example LLP"
        periodStart := none
        periodEnd := none
        scope := none
        pageNumbers := some [1]
        pageContent := none }
    processedAt := some 100 }

/-- Fixture: a fresh parse result differing from the stored fields. -/
def fixtureNewFields : EvidenceFields :=
  { reportType := some "SOC 2 Type II"
    auditor := none
    periodStart := none
    periodEnd := none
    scope := none
    pageNumbers := some [1, 2]
    pageContent := none }

/-- Fixture: a crawl state holding one ACTIVE compliance claim sourced
at the security page, for exercising the removal sweep. -/
def fixtureRemovalState : CrawlState :=
  { claims := [fixtureClaimSoc2]
    versions := [⟨"compliance", "SOC2_TYPE_II", fixtureLastVersionSoc2⟩]
    events := []
    evidence := []
    evidenceJobs := []
    riskScore := 0
    targetLastHash := some "h-old"
    targetLastCrawledAt := some 0 }

/-- Fixture: a crawl state whose target digest matches content
hashed by the identity stand-in. -/
def fixtureNoChangeState : CrawlState :=
  { claims := [fixtureClaimSoc2]
    versions := [⟨"compliance", "SOC2_TYPE_II", fixtureLastVersionSoc2⟩]
    events := []
    evidence := []
    evidenceJobs := []
    riskScore := 40
    targetLastHash := some "page content"
    targetLastCrawledAt := some 0 }


/-- C1 (counterexample): with both versions carrying numeric metadata
of equal value 99 and a polarity flip, the code classifies the change
as ADDED/Info, not REVERSED/Critical as the claim asserts (the numeric
truthiness guard consumes the case before the polarity rule). -/
theorem c1_numeric_meta_polarity_counterexample :
    classifyChange "sla 99% uptime" "sla 99% uptime now"
      (some ⟨99, some "%"⟩) (some ⟨99, some "%"⟩)
      Polarity.positive Polarity.negative = (EventType.ADDED, Severity.Info) ∧
    classifySpec "sla 99% uptime" "sla 99% uptime now"
      (some ⟨99, some "%"⟩) (some ⟨99, some "%"⟩)
      Polarity.positive Polarity.negative = (EventType.REVERSED, Severity.Critical) ∧
    (EventType.ADDED, Severity.Info) ≠ (EventType.REVERSED, Severity.Critical) := by
  refine ⟨by decide, by decide, by decide⟩

/-- C1 (amended): the classifier is first-match over the rules
weakening → WEAKENED/Critical; both numeric values truthy and changed →
NUMBER_CHANGED (Medium if decreased, else Info); both truthy but not
changed → ADDED/Info with the polarity rule skipped; polarity flip →
REVERSED/Critical; default ADDED/Info. -/
theorem c1_classifier_priority_amended (oldSnippet newSnippet : String)
    (lastMeta newMeta : Option ExtractedMeta)
    (lastPolarity newPolarity : Polarity) :
    classifyChange oldSnippet newSnippet lastMeta newMeta lastPolarity newPolarity =
      classifySpecAmended oldSnippet newSnippet lastMeta newMeta lastPolarity newPolarity := by
  unfold classifyChange classifySpecAmended firstFiring
  cases hw : detectWeakening oldSnippet newSnippet <;>
    cases htn : metaValueTruthy newMeta <;>
      cases htl : metaValueTruthy lastMeta <;>
        cases hc : (detectNumericChange lastMeta newMeta).1 <;>
          cases hp : lastPolarity != newPolarity <;>
            simp [hw, htn, htl, hc, hp, List.find?]

/-- C9 (counterexample): with old value 0 and new value 5 the code
returns (changed := false, decreased := false) — the zero side is
treated as missing by the JS truthiness guard — while the claim
mandates that the values be compared, i.e. (true, false). -/
theorem c9_numeric_change_counterexample :
    detectNumericChange (some ⟨0, none⟩) (some ⟨5, none⟩) = (false, false) ∧
    specNumericChange (some ⟨0, none⟩) (some ⟨5, none⟩) = (true, false) ∧
    detectNumericChange (some ⟨0, none⟩) (some ⟨5, none⟩) ≠
      specNumericChange (some ⟨0, none⟩) (some ⟨5, none⟩) := by
  refine ⟨by decide, by decide, by decide⟩

/-- C9 (amended): `detectNumericChange` returns (false, false) when
either side lacks a numeric value or carries the value 0; otherwise it
compares the values: changed iff they differ, decreased iff the new
one is smaller. -/
theorem c9_numeric_change_amended (oldMeta newMeta : Option ExtractedMeta) :
    detectNumericChange oldMeta newMeta =
      specNumericChangeAmended oldMeta newMeta := by
  cases oldMeta with
  | none =>
    simp [detectNumericChange, specNumericChangeAmended, numericValueOf,
      metaValueTruthy]
  | some om =>
    cases newMeta with
    | none =>
      simp [detectNumericChange, specNumericChangeAmended, numericValueOf,
        metaValueTruthy]
    | some nm =>
      by_cases ho : om.value = 0 <;> by_cases hn : nm.value = 0 <;>
        simp [detectNumericChange, specNumericChangeAmended, numericValueOf,
          metaValueTruthy, ho, hn]

/-- C4: the risk delta matches the table of the claim exactly, the updated
score is `min 100 (old + delta)`, and therefore (from a score within
bounds) the update is monotone non-decreasing and capped at 100. -/
theorem c4_risk_score_update (s : Nat) (et : EventType) (sev : Severity)
    (h : s ≤ 100) :
    riskDelta et sev = specRiskDelta et sev ∧
    updateRiskScore s et sev = min 100 (s + riskDelta et sev) ∧
    s ≤ updateRiskScore s et sev ∧
    updateRiskScore s et sev ≤ 100 := by
  cases et <;> cases sev <;>
    simp [riskDelta, specRiskDelta, updateRiskScore] <;> omega

/-- C4 witness: evaluated at score 50 and a Critical REMOVED event. -/
theorem c4_risk_score_update_witness :
    riskDelta EventType.REMOVED Severity.Critical =
      specRiskDelta EventType.REMOVED Severity.Critical ∧
    updateRiskScore 50 EventType.REMOVED Severity.Critical =
      min 100 (50 + riskDelta EventType.REMOVED Severity.Critical) ∧
    50 ≤ updateRiskScore 50 EventType.REMOVED Severity.Critical ∧
    updateRiskScore 50 EventType.REMOVED Severity.Critical ≤ 100 :=
  c4_risk_score_update 50 EventType.REMOVED Severity.Critical (by decide)

/-- C5: when the stored target digest equals the digest of the fetched
content, the crawl job stops before extraction: the resulting state is
exactly the input state, so no ClaimVersion, ChangeEvent or Evidence
row is created, no evidence job is enqueued, and the risk score is
unchanged. -/
theorem c5_unchanged_digest_short_circuit (hash : String → String)
    (extract : String → List ExtractedClaim)
    (pdfMatches : String → List String) (content url : String) (now : Nat)
    (user : Option UserRec) (st : CrawlState)
    (hdigest : st.targetLastHash = some (hash content)) :
    processCrawlJob hash extract pdfMatches content url now user st = some st ∧
    ∃ st2, processCrawlJob hash extract pdfMatches content url now user st = some st2 ∧
      st2.claims = st.claims ∧ st2.versions = st.versions ∧
      st2.events = st.events ∧ st2.evidence = st.evidence ∧
      st2.evidenceJobs = st.evidenceJobs ∧ st2.riskScore = st.riskScore := by
  have hmain : processCrawlJob hash extract pdfMatches content url now user st = some st := by
    unfold processCrawlJob
    rw [hdigest]
    simp
  exact ⟨hmain, st, hmain, rfl, rfl, rfl, rfl, rfl, rfl⟩

/-- C5 witness: a concrete state whose stored digest matches the
fetched content under a concrete digest function. -/
theorem c5_unchanged_digest_short_circuit_witness :
    processCrawlJob (fun s => s) (fun _ => []) (fun _ => [])
      "page content" "https://x.example/security" 7 none fixtureNoChangeState =
      some fixtureNoChangeState ∧
    ∃ st2, processCrawlJob (fun s => s) (fun _ => []) (fun _ => [])
        "page content" "https://x.example/security" 7 none fixtureNoChangeState = some st2 ∧
      st2.claims = fixtureNoChangeState.claims ∧
      st2.versions = fixtureNoChangeState.versions ∧
      st2.events = fixtureNoChangeState.events ∧
      st2.evidence = fixtureNoChangeState.evidence ∧
      st2.evidenceJobs = fixtureNoChangeState.evidenceJobs ∧
      st2.riskScore = fixtureNoChangeState.riskScore :=
  c5_unchanged_digest_short_circuit (fun s => s) (fun _ => []) (fun _ => [])
    "page content" "https://x.example/security" 7 none fixtureNoChangeState rfl


/-- C8 (counterexample): replaying an evidence job whose record is
already READY invokes the PDF parser anyway and rewrites the record
(here `processedAt` moves from 100 to 200 and `extractedFields` is
overwritten) — there is no READY early exit in `processEvidenceJob`. -/
theorem c8_ready_replay_counterexample :
    fixtureReadyEvidence.status = EvidenceStatus.READY ∧
    (processEvidenceJob (Except.ok fixtureNewFields) 200 fixtureReadyEvidence).parserInvoked = true ∧
    (processEvidenceJob (Except.ok fixtureNewFields) 200 fixtureReadyEvidence).record ≠
      fixtureReadyEvidence := by
  refine ⟨by decide, by decide, by decide⟩

/-- C8 (amended): `processEvidenceJob` always invokes the PDF parser,
regardless of the status of the record; on success it overwrites the
extracted fields, sets status READY and stamps `processedAt := now`
without re-throwing, and on failure it sets status FAILED, stores the
error, stamps `processedAt` and re-throws for the queue to retry. -/
theorem c8_evidence_job_amended (parsePdf : Except String EvidenceFields)
    (now : Nat) (ev : EvidenceRec) :
    (processEvidenceJob parsePdf now ev).parserInvoked = true ∧
    (∀ fields, parsePdf = Except.ok fields →
      (processEvidenceJob parsePdf now ev).record =
        { ev with extractedFields := some fields
                  status := EvidenceStatus.READY
                  processedAt := some now } ∧
      (processEvidenceJob parsePdf now ev).rethrown = false) ∧
    (∀ msg, parsePdf = Except.error msg →
      (processEvidenceJob parsePdf now ev).record =
        { ev with status := EvidenceStatus.FAILED
                  error := some msg
                  processedAt := some now } ∧
      (processEvidenceJob parsePdf now ev).rethrown = true) := by
  cases parsePdf <;> simp [processEvidenceJob]

/-- C8 witness: the amended behaviour evaluated on the READY fixture
and a successful parse. -/
theorem c8_evidence_job_amended_witness :
    (processEvidenceJob (Except.ok fixtureNewFields) 200 fixtureReadyEvidence).parserInvoked = true ∧
    (processEvidenceJob (Except.ok fixtureNewFields) 200 fixtureReadyEvidence).record =
      { fixtureReadyEvidence with
          extractedFields := some fixtureNewFields
          status := EvidenceStatus.READY
          processedAt := some 200 } :=
  ⟨(c8_evidence_job_amended (Except.ok fixtureNewFields) 200 fixtureReadyEvidence).1,
    ((c8_evidence_job_amended (Except.ok fixtureNewFields) 200 fixtureReadyEvidence).2.1
      fixtureNewFields rfl).1⟩

/-- C10: posting a company with domain and display name but no
categories field persists the Company (with the default categories
security and privacy) and then answers 500 — `categories.map` throws —
leaving no CrawlTarget created and no crawl job enqueued. -/
theorem c10_missing_categories_500 (domain displayName : String)
    (st : ApiState) (hd : domain ≠ "") (hn : displayName ≠ "") :
    postCompanies (some domain) (some displayName) none st =
      ⟨500, { st with companies := st.companies ++
        [{ domain := normalizeDomain domain
           displayName := displayName
           categoriesEnabled := ["security", "privacy"]
           riskScore := 0 }] }⟩ := by
  unfold postCompanies
  simp [truthyString, hd, hn]

/-- C10 witness: a concrete request against the empty store. -/
theorem c10_missing_categories_500_witness :
    postCompanies (some "Example.com") (some "Example") none ⟨[], [], []⟩ =
      ⟨500, { companies := [{ domain := normalizeDomain "Example.com"
                              displayName := "Example"
                              categoriesEnabled := ["security", "privacy"]
                              riskScore := 0 }]
              targets := []
              crawlJobs := [] }⟩ :=
  c10_missing_categories_500 "Example.com" "Example" ⟨[], [], []⟩
    (by decide) (by decide)

/-- The changed-claim classifier never produces a REMOVED event:
every branch yields WEAKENED, NUMBER_CHANGED, REVERSED or ADDED. -/
theorem classifyChange_fst_ne_removed (oldSnippet newSnippet : String)
    (lastMeta newMeta : Option ExtractedMeta)
    (lastPolarity newPolarity : Polarity) :
    (classifyChange oldSnippet newSnippet lastMeta newMeta
      lastPolarity newPolarity).1 ≠ EventType.REMOVED := by
  unfold classifyChange
  cases hw : detectWeakening oldSnippet newSnippet <;>
    cases htn : metaValueTruthy newMeta <;>
      cases htl : metaValueTruthy lastMeta <;>
        cases hc : (detectNumericChange lastMeta newMeta).1 <;>
          cases hp : lastPolarity != newPolarity <;>
            simp [hw, htn, htl, hc, hp]

/-- C2 (counterexample): the changed-claim classifier path creates its
event with both snippets attached even in the default ADDED branch, so
that event violates the payload matrix row for ADDED (new present, old
absent). -/
theorem c2_payload_matrix_counterexample :
    (changedClaimEvent fixtureClaimSoc2 fixtureExtractedSoc2
      fixtureLastVersionSoc2 "https://x.example/security" 1).eventType =
      EventType.ADDED ∧
    (changedClaimEvent fixtureClaimSoc2 fixtureExtractedSoc2
      fixtureLastVersionSoc2 "https://x.example/security" 1).oldSnippet =
      some "soc 2 type ii compliant" ∧
    matchesPayloadMatrix (changedClaimEvent fixtureClaimSoc2
      fixtureExtractedSoc2 fixtureLastVersionSoc2
      "https://x.example/security" 1) = false := by
  refine ⟨by decide, by decide, by decide⟩

/-- C2 (amended): the payload matrix holds at the new-claim site (ADDED
with new snippet only) and at the removal sweep (REMOVED with old
snippet only); the classifier path always attaches both snippets, so
its WEAKENED/REVERSED/NUMBER_CHANGED events match the matrix while its
default-branch ADDED events carry both snippets, violating the ADDED
row. -/
theorem c2_payload_matrix_amended :
    (∀ extracted url now,
      matchesPayloadMatrix (newClaimEvent extracted url now) = true) ∧
    (∀ c url now, matchesPayloadMatrix (removedEvent c url now) = true) ∧
    (∀ c extracted lastVersion url now,
      (changedClaimEvent c extracted lastVersion url now).oldSnippet =
        some c.currentSnippet ∧
      (changedClaimEvent c extracted lastVersion url now).newSnippet =
        some extracted.rawTextSnippet ∧
      ((changedClaimEvent c extracted lastVersion url now).eventType ≠
          EventType.ADDED →
        matchesPayloadMatrix (changedClaimEvent c extracted lastVersion url now) =
          true)) := by
  refine ⟨?_, ?_, ?_⟩
  · intro extracted url now
    simp [newClaimEvent, matchesPayloadMatrix]
  · intro c url now
    simp [removedEvent, matchesPayloadMatrix]
  · intro c extracted lastVersion url now
    refine ⟨rfl, rfl, ?_⟩
    intro hne
    simp only [changedClaimEvent] at hne ⊢
    rcases h : (classifyChange c.currentSnippet extracted.rawTextSnippet
      lastVersion.extractedMeta extracted.extractedMeta
      lastVersion.polarity extracted.polarity) with ⟨et, sev⟩
    rw [h] at hne
    cases et <;> simp_all [matchesPayloadMatrix]
    exact absurd (congrArg Prod.fst h)
      (classifyChange_fst_ne_removed c.currentSnippet extracted.rawTextSnippet
        lastVersion.extractedMeta extracted.extractedMeta
        lastVersion.polarity extracted.polarity)

/-- C2 witness: the amended matrix evaluated at the new-claim site and
at a classifier-path WEAKENED event. -/
theorem c2_payload_matrix_amended_witness :
    matchesPayloadMatrix (newClaimEvent fixtureExtractedSoc2
      "https://x.example/security" 0) = true ∧
    matchesPayloadMatrix (changedClaimEvent fixtureClaimDoNotSell
      fixtureExtractedWeakened fixtureLastVersionDoNotSell
      "https://x.example/privacy" 1) = true :=
  ⟨c2_payload_matrix_amended.1 fixtureExtractedSoc2 "https://x.example/security" 0,
    (c2_payload_matrix_amended.2.2 fixtureClaimDoNotSell fixtureExtractedWeakened
      fixtureLastVersionDoNotSell "https://x.example/privacy" 1).2.2 (by decide)⟩


/-- The fan-out fold is the original evidence plus one PENDING row and
one job per url in `newPdfUrls`. -/
theorem evidence_fold_eq (urls : List String) (e : List EvidenceRec)
    (j : List String) :
    urls.foldl processPdfUrl (e, j) =
      (e ++ (newPdfUrls urls e).map pendingEvidenceRow,
        j ++ newPdfUrls urls e) := by
  induction urls generalizing e j with
  | nil => simp [newPdfUrls]
  | cons u rest ih =>
    rw [List.foldl_cons]
    by_cases hpres : e.any (fun x => x.pdfUrl == u) = true
    · rw [show processPdfUrl (e, j) u = (e, j) by simp [processPdfUrl, hpres]]
      rw [ih, newPdfUrls, if_pos hpres]
    · rw [show processPdfUrl (e, j) u =
          (e ++ [pendingEvidenceRow u], j ++ [u]) by
        simp only [processPdfUrl]
        rw [if_neg hpres]]
      rw [ih, newPdfUrls, if_neg hpres]
      simp

/-- Every url the fold creates a row for was in the url list and not
already present in the evidence. -/
theorem newPdfUrls_sub (urls : List String) (e : List EvidenceRec) :
    ∀ u ∈ newPdfUrls urls e,
      u ∈ urls ∧ e.any (fun x => x.pdfUrl == u) = false := by
  induction urls generalizing e with
  | nil => simp [newPdfUrls]
  | cons u0 rest ih =>
    intro u hu
    rw [newPdfUrls] at hu
    by_cases hpres : e.any (fun x => x.pdfUrl == u0) = true
    · rw [if_pos hpres] at hu
      obtain ⟨h1, h2⟩ := ih e u hu
      exact ⟨List.mem_cons_of_mem _ h1, h2⟩
    · rw [if_neg hpres] at hu
      rcases List.mem_cons.mp hu with rfl | hmem
      · exact ⟨List.mem_cons_self _ _, by simpa using hpres⟩
      · obtain ⟨h1, h2⟩ := ih (e ++ [pendingEvidenceRow u0]) u hmem
        rw [List.any_append] at h2
        simp only [Bool.or_eq_false_iff] at h2
        exact ⟨List.mem_cons_of_mem _ h1, h2.1⟩

/-- Every url of the list ends up either already present in the
evidence or among the created rows. -/
theorem newPdfUrls_covers (urls : List String) (e : List EvidenceRec) :
    ∀ u ∈ urls,
      e.any (fun x => x.pdfUrl == u) = true ∨ u ∈ newPdfUrls urls e := by
  induction urls generalizing e with
  | nil => simp
  | cons u0 rest ih =>
    intro u hu
    rw [newPdfUrls]
    by_cases hpres : e.any (fun x => x.pdfUrl == u0) = true
    · rw [if_pos hpres]
      rcases List.mem_cons.mp hu with rfl | hmem
      · exact Or.inl hpres
      · exact ih e u hmem
    · rw [if_neg hpres]
      rcases List.mem_cons.mp hu with rfl | hmem
      · exact Or.inr (List.mem_cons_self _ _)
      · rcases ih (e ++ [pendingEvidenceRow u0]) u hmem with hp | hmem2
        · rw [List.any_append] at hp
          rcases Bool.or_eq_true_iff.mp hp with hp1 | hp2
          · exact Or.inl hp1
          · simp only [List.any_cons, List.any_nil, Bool.or_false,
              pendingEvidenceRow] at hp2
            have : u0 = u := by simpa using hp2
            subst this
            exact Or.inr (List.mem_cons_self _ _)
        · exact Or.inr (List.mem_cons_of_mem _ hmem2)

/-- The created rows never contain the same url twice. -/
theorem newPdfUrls_nodup (urls : List String) (e : List EvidenceRec) :
    (newPdfUrls urls e).Nodup := by
  induction urls generalizing e with
  | nil => simp [newPdfUrls]
  | cons u0 rest ih =>
    rw [newPdfUrls]
    by_cases hpres : e.any (fun x => x.pdfUrl == u0) = true
    · rw [if_pos hpres]; exact ih e
    · rw [if_neg hpres]
      refine List.nodup_cons.mpr ⟨?_, ih _⟩
      intro hmem
      obtain ⟨_, h2⟩ := newPdfUrls_sub rest (e ++ [pendingEvidenceRow u0]) u0 hmem
      rw [List.any_append] at h2
      simp [pendingEvidenceRow] at h2

/-- If every url of the list is already present, no row is created. -/
theorem newPdfUrls_nil_of_present (urls : List String) (e : List EvidenceRec)
    (h : ∀ u ∈ urls, e.any (fun x => x.pdfUrl == u) = true) :
    newPdfUrls urls e = [] := by
  induction urls with
  | nil => rfl
  | cons u0 rest ih =>
    rw [newPdfUrls, if_pos (h u0 (List.mem_cons_self _ _))]
    exact ih fun u hu => h u (List.mem_cons_of_mem _ hu)

/-- C7 (counterexample): on a match list with one url twice followed by
two other distinct urls, the worker creates rows only for the first two
distinct urls — the duplicate occupies one of the three slots — whereas
the claim mandates rows for the first three distinct urls, including
the third one. -/
theorem c7_evidence_fanout_counterexample :
    ((extractAndEnqueueEvidence
      ["https://x.example/report.pdf", "https://x.example/report.pdf",
        "https://y.example/iso.pdf", "https://z.example/audit.pdf"] [] []).1.map
        (fun e => e.pdfUrl)) =
      ["https://x.example/report.pdf", "https://y.example/iso.pdf"] ∧
    firstThreeDistinctNew
      ["https://x.example/report.pdf", "https://x.example/report.pdf",
        "https://y.example/iso.pdf", "https://z.example/audit.pdf"] [] =
      ["https://x.example/report.pdf", "https://y.example/iso.pdf",
        "https://z.example/audit.pdf"] ∧
    ¬ ("https://z.example/audit.pdf" ∈
      ((extractAndEnqueueEvidence
        ["https://x.example/report.pdf", "https://x.example/report.pdf",
          "https://y.example/iso.pdf", "https://z.example/audit.pdf"] [] []).1.map
          (fun e => e.pdfUrl))) := by
  refine ⟨by decide, by decide, by decide⟩

/-- C7 (amended): the fan-out considers only the first three regex
matches (duplicates occupy slots); among those it creates exactly one
PENDING compliance Evidence row and enqueues exactly one
process_evidence job per url not already present, never creating the
same url twice; re-running on the resulting evidence creates nothing. -/
theorem c7_evidence_fanout_amended (matchList : List String)
    (evidence : List EvidenceRec) (jobs : List String) :
    (extractAndEnqueueEvidence matchList evidence jobs).1 =
      evidence ++ (newPdfUrls (matchList.take 3) evidence).map pendingEvidenceRow ∧
    (extractAndEnqueueEvidence matchList evidence jobs).2 =
      jobs ++ newPdfUrls (matchList.take 3) evidence ∧
    (newPdfUrls (matchList.take 3) evidence).Nodup ∧
    (∀ u ∈ newPdfUrls (matchList.take 3) evidence,
      u ∈ matchList.take 3 ∧ evidence.any (fun x => x.pdfUrl == u) = false) ∧
    (∀ u ∈ matchList.take 3,
      evidence.any (fun x => x.pdfUrl == u) = true ∨
        u ∈ newPdfUrls (matchList.take 3) evidence) ∧
    (∀ jobs2, extractAndEnqueueEvidence matchList
        (extractAndEnqueueEvidence matchList evidence jobs).1 jobs2 =
      ((extractAndEnqueueEvidence matchList evidence jobs).1, jobs2)) := by
  have hrun : extractAndEnqueueEvidence matchList evidence jobs =
      (evidence ++ (newPdfUrls (matchList.take 3) evidence).map pendingEvidenceRow,
        jobs ++ newPdfUrls (matchList.take 3) evidence) :=
    evidence_fold_eq (matchList.take 3) evidence jobs
  refine ⟨by rw [hrun], by rw [hrun], newPdfUrls_nodup _ _,
    newPdfUrls_sub _ _, newPdfUrls_covers _ _, ?_⟩
  intro jobs2
  rw [hrun]
  have hall : ∀ u ∈ matchList.take 3,
      (evidence ++ (newPdfUrls (matchList.take 3) evidence).map pendingEvidenceRow).any
        (fun x => x.pdfUrl == u) = true := by
    intro u hu
    rw [List.any_append]
    rcases newPdfUrls_covers (matchList.take 3) evidence u hu with hp | hmem
    · exact Bool.or_eq_true_iff.mpr (Or.inl hp)
    · refine Bool.or_eq_true_iff.mpr (Or.inr ?_)
      refine List.any_eq_true.mpr
        ⟨pendingEvidenceRow u, List.mem_map_of_mem _ hmem, ?_⟩
      simp [pendingEvidenceRow]
  have hnil := newPdfUrls_nil_of_present (matchList.take 3) _ hall
  show extractAndEnqueueEvidence matchList _ jobs2 = _
  rw [extractAndEnqueueEvidence, evidence_fold_eq, hnil]
  simp

/-- C7 witness: the amended statement evaluated on the S5-style page
(one url twice, one url once) against an empty evidence store. -/
theorem c7_evidence_fanout_amended_witness :
    (extractAndEnqueueEvidence
      ["https://x.example/report.pdf", "https://x.example/report.pdf",
        "https://y.example/iso.pdf"] [] []).2 =
      [] ++ newPdfUrls
        (["https://x.example/report.pdf", "https://x.example/report.pdf",
          "https://y.example/iso.pdf"].take 3) [] ∧
    (([] : List EvidenceRec).any
        (fun x => x.pdfUrl == "https://y.example/iso.pdf") = true ∨
      "https://y.example/iso.pdf" ∈ newPdfUrls
        (["https://x.example/report.pdf", "https://x.example/report.pdf",
          "https://y.example/iso.pdf"].take 3) []) :=
  ⟨(c7_evidence_fanout_amended
      ["https://x.example/report.pdf", "https://x.example/report.pdf",
        "https://y.example/iso.pdf"] [] []).2.1,
    (c7_evidence_fanout_amended
      ["https://x.example/report.pdf", "https://x.example/report.pdf",
        "https://y.example/iso.pdf"] [] []).2.2.2.2.1
      "https://y.example/iso.pdf" (by decide)⟩


/-- Filter-length monotonicity: a pointwise-stronger predicate selects
at most as many elements. -/
theorem length_filter_le_of_imp {α : Type} (p q : α → Bool) (l : List α)
    (h : ∀ a ∈ l, p a = true → q a = true) :
    (l.filter p).length ≤ (l.filter q).length := by
  induction l with
  | nil => simp
  | cons a l ih =>
    have ih2 := ih fun x hx => h x (List.mem_cons_of_mem _ hx)
    by_cases hp : p a = true
    · rw [List.filter_cons, if_pos hp, List.filter_cons,
        if_pos (h a (List.mem_cons_self _ _) hp)]
      simpa using ih2
    · rw [List.filter_cons, if_neg hp]
      by_cases hq : q a = true
      · rw [List.filter_cons, if_pos hq]
        exact Nat.le_succ_of_le ih2
      · rw [List.filter_cons, if_neg hq]
        exact ih2

/-- The alert step either leaves the event untouched or only stamps its
`emailedAt`. -/
theorem sendCriticalAlert_event_cases (events : List ChangeEventRec)
    (ev : ChangeEventRec) (now : Nat) (user : Option UserRec) :
    (sendCriticalAlert events ev now user).event = ev ∨
      (sendCriticalAlert events ev now user).event =
        { ev with emailedAt := some now } := by
  unfold sendCriticalAlert
  by_cases hc : 5 ≤ recentCriticalCount events now
  · rw [if_pos hc]; exact Or.inl rfl
  · rw [if_neg hc]
    cases user
    · exact Or.inl rfl
    · exact Or.inr rfl

/-- In every reachable event collection, an event with a stamped
`emailedAt` is Critical: `emailedAt` is only ever set by the Critical
alert path. -/
theorem alertReachable_emailed_critical {evs : List ChangeEventRec}
    (h : AlertReachable evs) :
    ∀ e ∈ evs, ∀ t, e.emailedAt = some t → e.severity = Severity.Critical := by
  induction h with
  | nil => simp
  | create events ev _ hnone ih =>
    intro e he t het
    rcases List.mem_cons.mp he with rfl | hmem
    · rw [hnone] at het; cases het
    · exact ih e hmem t het
  | alert events ev now user _ hnone hcrit hmono ih =>
    intro e he t het
    rcases List.mem_cons.mp he with rfl | hmem
    · rcases sendCriticalAlert_event_cases (ev :: events) ev now user with hc | hc <;>
        rw [hc] <;> exact hcrit
    · exact ih e (List.mem_cons_of_mem _ hmem) t het

/-- Rolling-window bound for reachable event collections: at most 5
events carry an `emailedAt` inside any 60-minute window. -/
theorem alertReachable_window_bound {evs : List ChangeEventRec}
    (h : AlertReachable evs) : ∀ t, windowCount evs t ≤ 5 := by
  induction h with
  | nil => intro t; simp [windowCount]
  | create events ev _ hnone ih =>
    intro t
    have heq : windowCount (ev :: events) t = windowCount events t := by
      simp [windowCount, List.filter_cons, hnone]
    rw [heq]; exact ih t
  | alert events ev now user hreach hnone hcrit hmono ih =>
    intro t
    have htail : windowCount (ev :: events) t = windowCount events t := by
      simp [windowCount, List.filter_cons, hnone]
    have ihtail : windowCount events t ≤ 5 := by
      have h5 := ih t
      rw [htail] at h5
      exact h5
    by_cases hge : 5 ≤ recentCriticalCount (ev :: events) now
    · have hev : (sendCriticalAlert (ev :: events) ev now user).event = ev := by
        unfold sendCriticalAlert
        rw [if_pos hge]
      rw [hev, htail]
      exact ihtail
    · cases user with
      | none =>
        have hev : (sendCriticalAlert (ev :: events) ev now none).event = ev := by
          unfold sendCriticalAlert
          rw [if_neg hge]
        rw [hev, htail]
        exact ihtail
      | some u =>
        have hev : (sendCriticalAlert (ev :: events) ev now (some u)).event =
            { ev with emailedAt := some now } := by
          unfold sendCriticalAlert
          rw [if_neg hge]
        rw [hev]
        have hcount : recentCriticalCount events now < 5 := by
          have heq : recentCriticalCount (ev :: events) now =
              recentCriticalCount events now := by
            simp [recentCriticalCount, List.filter_cons, hnone]
          rw [heq] at hge
          omega
        cases hb : ((decide (t - alertWindowMs ≤ now)) && (decide (now ≤ t))) with
        | true =>
          have hw : t - alertWindowMs ≤ now ∧ now ≤ t := by simpa using hb
          have hpred : (fun e => match e.emailedAt with
              | some s => decide (t - alertWindowMs ≤ s) && decide (s ≤ t)
              | none => false) ({ ev with emailedAt := some now } : ChangeEventRec) = true := hb
          have hhead : windowCount ({ ev with emailedAt := some now } :: events) t =
              windowCount events t + 1 := by
            unfold windowCount
            rw [List.filter_cons, if_pos hpred]
            simp
          have hle : windowCount events t ≤ recentCriticalCount events now := by
            unfold windowCount recentCriticalCount
            apply length_filter_le_of_imp
            intro e he hpe
            cases hem : e.emailedAt with
            | none => rw [hem] at hpe; cases hpe
            | some s =>
              rw [hem] at hpe
              have hs : t - alertWindowMs ≤ s ∧ s ≤ t := by simpa using hpe
              have hcritE : e.severity = Severity.Critical :=
                alertReachable_emailed_critical hreach e
                  (List.mem_cons_of_mem _ he) s hem
              have hlow : now - alertWindowMs ≤ s := by omega
              simp [hcritE, hem, hlow]
          rw [hhead]
          omega
        | false =>
          have hhead : windowCount ({ ev with emailedAt := some now } :: events) t =
              windowCount events t := by
            unfold windowCount
            rw [List.filter_cons, if_neg (fun hcon =>
              absurd (show ((decide (t - alertWindowMs ≤ now)) &&
                  (decide (now ≤ t))) = true from hcon)
                (by rw [hb]; simp))]
          rw [hhead]
          exact ihtail

/-- C6: the Critical-alert rate limiter drops the email (leaving
`emailedAt` unset) whenever five or more Critical events of the company
were already emailed in the trailing hour, and otherwise (with the
owning user present) sends it and stamps `emailedAt := now`;
consequently every event collection reachable through this pipeline has
at most 5 stamped events in any rolling 60-minute window. -/
theorem c6_critical_alert_rate_limit :
    (∀ events ev now user, 5 ≤ recentCriticalCount events now →
      sendCriticalAlert events ev now user = ⟨ev, false⟩) ∧
    (∀ events ev now u, recentCriticalCount events now < 5 →
      sendCriticalAlert events ev now (some u) =
        ⟨{ ev with emailedAt := some now }, true⟩) ∧
    (∀ events, AlertReachable events → ∀ t, windowCount events t ≤ 5) := by
  refine ⟨?_, ?_, ?_⟩
  · intro events ev now user hge
    unfold sendCriticalAlert
    rw [if_pos hge]
  · intro events ev now u hlt
    unfold sendCriticalAlert
    rw [if_neg (by omega)]
  · intro events h t
    exact alertReachable_window_bound h t

/-- C6 witness: a company with five already-emailed Critical events
drops the sixth; an empty history sends and stamps; the window bound
holds at the empty collection. -/
theorem c6_critical_alert_rate_limit_witness :
    sendCriticalAlert (List.replicate 5 fixtureEmailedCriticalEvent)
      fixtureCriticalEvent 0 (some ⟨"owner@example.com"⟩) =
      ⟨fixtureCriticalEvent, false⟩ ∧
    sendCriticalAlert [] fixtureCriticalEvent 0 (some ⟨"owner@example.com"⟩) =
      ⟨{ fixtureCriticalEvent with emailedAt := some 0 }, true⟩ ∧
    windowCount [] 0 ≤ 5 :=
  ⟨c6_critical_alert_rate_limit.1 (List.replicate 5 fixtureEmailedCriticalEvent)
      fixtureCriticalEvent 0 (some ⟨"owner@example.com"⟩) (by decide),
    c6_critical_alert_rate_limit.2.1 [] fixtureCriticalEvent 0
      ⟨"owner@example.com"⟩ (by decide),
    c6_critical_alert_rate_limit.2.2 [] AlertReachable.nil 0⟩


/-- The REMOVED event copies its data from the removed claim. -/
theorem removedEvent_shape (c : ClaimRec) (url : String) (now : Nat) :
    removalEventShape c (removedEvent c url now) :=
  ⟨rfl, rfl, rfl, rfl, rfl, rfl⟩

/-- Processing one removed claim pushes exactly one event, of the
removal shape, onto the events of the company. -/
theorem processRemovedClaim_events (url : String) (now : Nat)
    (user : Option UserRec) (st : CrawlState) (c : ClaimRec) :
    ∃ ev, (processRemovedClaim url now user st c).events = ev :: st.events ∧
      removalEventShape c ev := by
  simp only [processRemovedClaim, pushEventWithAlert]
  split
  · refine ⟨_, rfl, ?_⟩
    rcases sendCriticalAlert_event_cases
        (removedEvent c url now :: st.events) (removedEvent c url now) now user
      with hc | hc <;> rw [hc]
    · exact removedEvent_shape c url now
    · exact removedEvent_shape c url now
  · exact ⟨_, rfl, removedEvent_shape c url now⟩

/-- Processing one removed claim marks exactly the claims with its
identity as REMOVED and leaves the rest untouched. -/
theorem processRemovedClaim_claims (url : String) (now : Nat)
    (user : Option UserRec) (st : CrawlState) (c : ClaimRec) :
    (processRemovedClaim url now user st c).claims =
      st.claims.map (fun x =>
        if sameClaimIdent c.claimType c.normalizedKey x then
          { x with currentStatus := ClaimStatus.REMOVED }
        else x) := by
  simp only [processRemovedClaim, pushEventWithAlert]
  split <;> rfl

/-- Events appended by the removal-sweep fold: one removal-shaped event
per processed claim, and one processed claim per appended event. -/
theorem removal_fold_events (url : String) (keys : List String) (now : Nat)
    (user : Option UserRec) (cs : List ClaimRec) (st : CrawlState) :
    ∃ evs, (cs.foldl (fun acc c => if keys.contains c.normalizedKey then acc
        else processRemovedClaim url now user acc c) st).events =
          evs ++ st.events ∧
      (∀ e ∈ evs, ∃ c ∈ cs, keys.contains c.normalizedKey = false ∧
        removalEventShape c e) ∧
      (∀ c ∈ cs, keys.contains c.normalizedKey = false →
        ∃ e ∈ evs, removalEventShape c e) := by
  induction cs generalizing st with
  | nil => exact ⟨[], rfl, by simp, by simp⟩
  | cons c cs ih =>
    rw [List.foldl_cons]
    by_cases hk : keys.contains c.normalizedKey = true
    · rw [if_pos hk]
      obtain ⟨evs, he, hfwd, hbwd⟩ := ih st
      refine ⟨evs, he, ?_, ?_⟩
      · intro e hee
        obtain ⟨c2, hc2, hkc2, hs⟩ := hfwd e hee
        exact ⟨c2, List.mem_cons_of_mem _ hc2, hkc2, hs⟩
      · intro c2 hc2 hkc2
        rcases List.mem_cons.mp hc2 with rfl | hmem
        · rw [hk] at hkc2
          exact Bool.noConfusion hkc2
        · exact hbwd c2 hmem hkc2
    · rw [if_neg hk]
      have hkf : keys.contains c.normalizedKey = false := by
        cases hcc : keys.contains c.normalizedKey
        · rfl
        · exact absurd hcc hk
      obtain ⟨ev0, hev0, hshape⟩ := processRemovedClaim_events url now user st c
      obtain ⟨evs, he, hfwd, hbwd⟩ := ih (processRemovedClaim url now user st c)
      refine ⟨evs ++ [ev0], ?_, ?_, ?_⟩
      · rw [he, hev0]
        simp
      · intro e hee
        rcases List.mem_append.mp hee with hmem | hmem
        · obtain ⟨c2, hc2, hkc2, hs⟩ := hfwd e hmem
          exact ⟨c2, List.mem_cons_of_mem _ hc2, hkc2, hs⟩
        · have heq : e = ev0 := by simpa using hmem
          subst heq
          exact ⟨c, List.mem_cons_self _ _, hkf, hshape⟩
      · intro c2 hc2 hkc2
        rcases List.mem_cons.mp hc2 with rfl | hmem
        · exact ⟨ev0, by simp, hshape⟩
        · obtain ⟨e, hee, hs⟩ := hbwd c2 hmem hkc2
          exact ⟨e, List.mem_append.mpr (Or.inl hee), hs⟩

/-- Claims after the removal-sweep fold: every claim whose identity
matches a processed claim is marked REMOVED, all others are kept. -/
theorem removal_fold_claims (url : String) (keys : List String) (now : Nat)
    (user : Option UserRec) (cs : List ClaimRec) (st : CrawlState) :
    (cs.foldl (fun acc c => if keys.contains c.normalizedKey then acc
        else processRemovedClaim url now user acc c) st).claims =
      st.claims.map (fun x =>
        if cs.any (fun c => !keys.contains c.normalizedKey &&
            sameClaimIdent c.claimType c.normalizedKey x) then
          { x with currentStatus := ClaimStatus.REMOVED }
        else x) := by
  induction cs generalizing st with
  | nil => simp
  | cons c cs ih =>
    rw [List.foldl_cons]
    by_cases hk : keys.contains c.normalizedKey = true
    · rw [if_pos hk, ih st]
      simp only [List.any_cons, hk, Bool.not_true, Bool.false_and,
        Bool.false_or]
    · have hkf : keys.contains c.normalizedKey = false := by
        cases hcc : keys.contains c.normalizedKey
        · rfl
        · exact absurd hcc hk
      rw [if_neg hk, ih (processRemovedClaim url now user st c),
        processRemovedClaim_claims, List.map_map]
      congr 1
      funext x
      simp only [Function.comp_apply]
      by_cases hid : sameClaimIdent c.claimType c.normalizedKey x = true
      · rw [if_pos hid]
        rw [show (c :: cs).any (fun c2 => !keys.contains c2.normalizedKey &&
            sameClaimIdent c2.claimType c2.normalizedKey x) = true from by
          rw [List.any_cons, hkf, hid]
          rfl]
        split <;> rfl
      · rw [if_neg hid]
        have hidf : sameClaimIdent c.claimType c.normalizedKey x = false := by
          cases hcc : sameClaimIdent c.claimType c.normalizedKey x
          · rfl
          · exact absurd hcc hid
        simp only [List.any_cons, hidf, Bool.and_false, Bool.false_or]


/-- C3: during a crawl of URL `url`, the removal sweep emits an event
for key K iff some claim of the company has key K, is ACTIVE, currently
points at `url` as its source, and K is not among the keys extracted in
this run; every emitted event is a REMOVED event carrying the removed
old snippet (and no new snippet) with severity Critical for compliance
claims and Medium otherwise; every swept claim has its status set to
REMOVED; and no event is ever emitted for a key present in the current
extraction. -/
theorem c3_removed_event_characterisation (st : CrawlState) (url : String)
    (keys : List String) (now : Nat) (user : Option UserRec) (K : String) :
    ∃ evs, (checkRemovedClaims url keys now user st).events = evs ++ st.events ∧
      ((∃ e ∈ evs, e.normalizedKey = K) ↔
        (∃ c ∈ st.claims, c.normalizedKey = K ∧
          c.currentStatus = ClaimStatus.ACTIVE ∧ c.currentSourceUrl = url ∧
          keys.contains K = false)) ∧
      (∀ e ∈ evs, ∃ c ∈ st.claims, removedPred url keys c = true ∧
        removalEventShape c e) ∧
      (∀ c ∈ st.claims, removedPred url keys c = true →
        { c with currentStatus := ClaimStatus.REMOVED } ∈
          (checkRemovedClaims url keys now user st).claims) ∧
      (keys.contains K = true → ∀ e ∈ evs, e.normalizedKey ≠ K) := by
  have hck : checkRemovedClaims url keys now user st =
      (st.claims.filter fun c => c.currentStatus == ClaimStatus.ACTIVE &&
        c.currentSourceUrl == url).foldl
        (fun acc c => if keys.contains c.normalizedKey then acc
          else processRemovedClaim url now user acc c) st := rfl
  obtain ⟨evs, he, hfwd, hbwd⟩ := removal_fold_events url keys now user
    (st.claims.filter fun c => c.currentStatus == ClaimStatus.ACTIVE &&
      c.currentSourceUrl == url) st
  refine ⟨evs, by rw [hck]; exact he, ?_, ?_, ?_, ?_⟩
  · constructor
    · rintro ⟨e, hee, hek⟩
      obtain ⟨c, hcf, hkc, hshape⟩ := hfwd e hee
      obtain ⟨hcm, hcp⟩ := List.mem_filter.mp hcf
      have hcp2 : c.currentStatus = ClaimStatus.ACTIVE ∧
          c.currentSourceUrl = url := by simpa using hcp
      have hckey : c.normalizedKey = K := by rw [← hshape.2.1, hek]
      refine ⟨c, hcm, hckey, hcp2.1, hcp2.2, ?_⟩
      rw [← hckey]
      exact hkc
    · rintro ⟨c, hcm, hck2, hstatus, hurl, hcont⟩
      have hcf : c ∈ st.claims.filter fun c =>
          c.currentStatus == ClaimStatus.ACTIVE && c.currentSourceUrl == url :=
        List.mem_filter.mpr ⟨hcm, by simp [hstatus, hurl]⟩
      have hkc : keys.contains c.normalizedKey = false := by
        rw [hck2]; exact hcont
      obtain ⟨e, hee, hshape⟩ := hbwd c hcf hkc
      exact ⟨e, hee, by rw [hshape.2.1, hck2]⟩
  · intro e hee
    obtain ⟨c, hcf, hkc, hshape⟩ := hfwd e hee
    obtain ⟨hcm, hcp⟩ := List.mem_filter.mp hcf
    have hcp2 : c.currentStatus = ClaimStatus.ACTIVE ∧
        c.currentSourceUrl = url := by simpa using hcp
    refine ⟨c, hcm, ?_, hshape⟩
    have hkc2 : c.normalizedKey ∉ keys := by simpa using hkc
    simp [removedPred, hcp2.1, hcp2.2, hkc2]
  · intro c hcm hpred
    have hparts : c.currentStatus = ClaimStatus.ACTIVE ∧
        c.currentSourceUrl = url ∧ keys.contains c.normalizedKey = false := by
      have h2 := hpred
      unfold removedPred at h2
      simp at h2
      exact ⟨h2.1.1, h2.1.2, by simpa using h2.2⟩
    have hcf : c ∈ st.claims.filter fun c =>
        c.currentStatus == ClaimStatus.ACTIVE && c.currentSourceUrl == url :=
      List.mem_filter.mpr ⟨hcm, by simp [hparts.1, hparts.2.1]⟩
    rw [hck, removal_fold_claims]
    refine List.mem_map.mpr ⟨c, hcm, ?_⟩
    rw [if_pos]
    exact List.any_eq_true.mpr ⟨c, hcf, by
      rw [hparts.2.2]
      simp [sameClaimIdent]⟩
  · intro hkt e hee hek
    obtain ⟨c, hcf, hkc, hshape⟩ := hfwd e hee
    have hckey : c.normalizedKey = K := by rw [← hshape.2.1, hek]
    rw [hckey, hkt] at hkc
    exact Bool.noConfusion hkc

/-- C3 witness: on a state with one ACTIVE compliance claim sourced at
the security page and an empty extraction, the sweep marks the claim
REMOVED. -/
theorem c3_removed_event_characterisation_witness :
    { fixtureClaimSoc2 with currentStatus := ClaimStatus.REMOVED } ∈
      (checkRemovedClaims "https://x.example/security" [] 5 none
        fixtureRemovalState).claims := by
  obtain ⟨evs, he, hiff, hshapes, hclaims, hnk⟩ :=
    c3_removed_event_characterisation fixtureRemovalState
      "https://x.example/security" [] 5 none "SOC2_TYPE_II"
  exact hclaims fixtureClaimSoc2 (by simp [fixtureRemovalState]) (by decide)

end TrustWatch
